import Mathlib

/- Shallow embedding of the multi-database MCP server core
   (src/db/mcpServer.js, first revision, lines 1-738): the query safety
   gate, the connection registry, the retry executor and the
   environment-driven configuration resolver.  Machine strings are
   modelled as Lean `String`/`List Char`; the JavaScript notion of
   truthiness for optional string and integer fields is modelled
   explicitly.  The regular-expression fragment used by the safety gate
   and the retry classifier is modelled over the ASCII whitespace and
   word-character classes, which cover every string the server builds. -/

-- ### JavaScript string primitives (ASCII fragment)

def isJsWS (c : Char) : Bool :=
  c = ' ' || c = '\t' || c = '\n' || c = '\r' || c = '\x0b' || c = '\x0c'

def jsTrim (l : List Char) : List Char :=
  ((l.dropWhile isJsWS).reverse.dropWhile isJsWS).reverse

/-- JS truthiness of an optional string field: `undefined` and `""` are falsy. -/
def truthyS : Option String → Bool
  | none => false
  | some s => !s.isEmpty

/-- JS truthiness of an optional integer field: `undefined` and `0` are falsy. -/
def truthyI : Option Int → Bool
  | none => false
  | some n => n != 0

/-- `a || b` on optional string fields. -/
def orS (a b : Option String) : Option String :=
  if truthyS a then a else b

/-- `a || b` on optional integer fields. -/
def orI (a b : Option Int) : Option Int :=
  if truthyI a then a else b

/-- `a || d` where `d` is a mandatory string default. -/
def jsOrStrD (a : Option String) (d : String) : String :=
  if truthyS a then a.getD d else d

/-- `a || d` where `d` is a mandatory integer default. -/
def jsOrIntD (a : Option Int) (d : Int) : Int :=
  if truthyI a then a.getD d else d

-- ### Query safety gate (isDMLDDLQuery, mcpServer.js lines 283-307)

/-- Characters the gate's regex treats as statement separators: `[;\n\r]`. -/
def isSepChar (c : Char) : Bool :=
  c = ';' || c = '\n' || c = '\r'

/-- JS regex `\w` over ASCII, used for the `\b` word boundary. -/
def isWordChar (c : Char) : Bool :=
  c.isAlpha || c.isDigit || c = '_'

def startsWithL : List Char → List Char → Bool
  | [], _ => true
  | _ :: _, [] => false
  | a :: as, b :: bs => a = b && startsWithL as bs

/-- The `\b` boundary after a keyword: end of input or a non-word character. -/
def boundaryOk : List Char → Bool
  | [] => true
  | c :: _ => !isWordChar c

def dmlKeywords : List (List Char) :=
  [("INSERT".data), ("UPDATE".data), ("DELETE".data), ("MERGE".data), ("CREATE".data),
   ("ALTER".data), ("DROP".data), ("TRUNCATE".data), ("RENAME".data), ("GRANT".data),
   ("REVOKE".data), ("COMMIT".data), ("ROLLBACK".data)]

/-- The first character of every gate keyword is a non-whitespace word
    character. -/
def kwHeadNonWS : List Char → Bool
  | [] => false
  | c :: _ => !isJsWS c

/-- One keyword matches at this position as a whole word. -/
def kwAt (kw l : List Char) : Bool :=
  startsWithL kw l && boundaryOk (l.drop kw.length)

/-- `(INSERT|UPDATE|...)\b` matches at this position. -/
def kwHere (l : List Char) : Bool :=
  dmlKeywords.any (fun kw => kwAt kw l)

/-- `\s*(INSERT|...)\b` matches at this position.  Since every keyword starts
    with a letter, the greedy whitespace skip is exhaustive. -/
def matchFrom (l : List Char) : Bool :=
  kwHere (l.dropWhile isJsWS)

/-- The `[;\n\r]+\s*(KW)\b` alternative matches somewhere in the text:
    some position holds a separator character directly followed by a
    whitespace-padded keyword. -/
def scanAfterSep : List Char → Bool
  | [] => false
  | c :: cs => (isSepChar c && matchFrom cs) || scanAfterSep cs

/-- `query.trim().toUpperCase()` from the source. -/
def normalizeQuery (q : String) : List Char :=
  (jsTrim q.data).map Char.toUpper

/-- `isDMLDDLQuery` (mcpServer.js lines 283-307): tests the regex
    `(^|[;\n\r]+)\s*(INSERT|UPDATE|...|ROLLBACK)\b` against the trimmed,
    upper-cased query. -/
def isDMLDDLQuery (q : String) : Bool :=
  matchFrom (normalizeQuery q) || scanAfterSep (normalizeQuery q)

/-- The classifier as worded by the claim: after trimming and ignoring
    leading statement separators (and interleaved whitespace), the text
    begins with one of the keywords as a whole word. -/
def claimMutating (q : String) : Bool :=
  kwHere ((normalizeQuery q).dropWhile (fun c => isSepChar c || isJsWS c))

/-- Declarative reading of `\s*(KW)\b` used by the amended claim. -/
def mutatingAt (v : List Char) : Prop :=
  ∃ w rest, v = w ++ rest ∧ (∀ c ∈ w, isJsWS c = true) ∧ kwHere rest = true

-- ### Connection configuration (data model of mcpServer.js)

/-- A JS connection-config object.  Absent fields are `none`; present but
    empty/zero fields keep their written value so that JS truthiness can be
    modelled faithfully.  `options` models the plain option object attached
    for SQL Server (`JSON.stringify`-able map from key to boolean). -/
structure Cfg where
  host : Option String
  server : Option String
  port : Option Int
  user : Option String
  password : Option String
  database : Option String
  options : Option (List (String × Bool))
deriving DecidableEq

/-- `DEFAULT_PORTS` plus `getDefaultPort` (`DEFAULT_PORTS[type] || DEFAULT_PORTS.mysql`). -/
def getDefaultPort (ty : String) : Int :=
  if ty = ("mysql") then 3306
  else if ty = ("mariadb") then 3306
  else if ty = ("postgresql") then 5432
  else if ty = ("sqlserver") then 1433
  else 3306

/-- `SQLSERVER_OPTIONS`. -/
def sqlserverOptions : List (String × Bool) :=
  [(("encrypt"), true), (("trustServerCertificate"), true)]

/-- `JSON.stringify` of a boolean option object, as used inside the cache key. -/
def stringifyOpts (opts : List (String × Bool)) : String :=
  ("\x7b") ++
    String.intercalate (",")
      (opts.map (fun p => ("\"") ++ p.1 ++ ("\":") ++ (if p.2 then ("true") else ("false")))) ++
  ("\x7d")

/-- `normalizeSqlServerConfig` (lines 132-139): for the sqlserver backend with a
    truthy `host`, move `host` to `server` and attach the fixed TLS options. -/
def normalizeSqlServerConfig (cfg : Cfg) (ty : String) : Cfg :=
  if ty = ("sqlserver") && truthyS cfg.host then
    { cfg with server := cfg.host, host := none, options := some sqlserverOptions }
  else cfg

/-- An option key outside the SQL Server whitelist. -/
def isInvalidSqlOpt (p : String × Bool) : Bool :=
  !(p.1 = ("encrypt") || p.1 = ("trustServerCertificate") || p.1 = ("enableArithAbort"))

def invalidSqlOpts (cfg : Cfg) : List String :=
  match cfg.options with
  | some o => (o.filter isInvalidSqlOpt).map Prod.fst
  | none => []

/-- `validateConnectionConfig` (lines 141-177), as an `Except`: a missing
    host/server, an out-of-range truthy port, or a disallowed SQL Server
    option key is an error. -/
def validateConnectionConfig (cfg : Cfg) (ty : String) : Except String Cfg :=
  if !truthyS cfg.host && !truthyS cfg.server then
    .error (("Host/Server không được để trống cho ") ++ ty)
  else if truthyI cfg.port && (cfg.port.getD 0 ≤ 0 || cfg.port.getD 0 > 65535) then
    .error (("Port phải là số dương từ 1-65535, nhận được: ") ++ toString (cfg.port.getD 0))
  else if ty = ("sqlserver") && !(invalidSqlOpts cfg).isEmpty then
    .error (("SQL Server options không hợp lệ: ") ++ String.intercalate (", ") (invalidSqlOpts cfg))
  else .ok cfg

-- ### Connection registry (getConnectionKey / getConnection / removeConnection)

/-- `getConnectionKey` (lines 80-87): the cache key is the underscore-joined
    concatenation of type, truthy-defaulted host/server, port, database,
    user and the serialized options.  The password never enters the key. -/
def getConnectionKey (ty : String) (cfg : Cfg) : String :=
  let host := if truthyS cfg.host then cfg.host.getD ("") else
    if truthyS cfg.server then cfg.server.getD ("") else ("localhost")
  let port := if truthyI cfg.port then cfg.port.getD 0 else getDefaultPort ty
  let db := if truthyS cfg.database then cfg.database.getD ("") else ("no_database")
  let user := if truthyS cfg.user then cfg.user.getD ("") else ("no_user")
  let opts := match cfg.options with
    | some o => stringifyOpts o
    | none => ("\x7b\x7d")
  ty ++ ("_") ++ host ++ ("_") ++ toString port ++ ("_") ++ db ++ ("_") ++ user ++ ("_") ++ opts

/-- The normalized field tuple the spec says the key is computed from.
    Stated from the spec's words, for comparison with `getConnectionKey`. -/
def normalizedKeyFields (ty : String) (cfg : Cfg) : String × Int × String × String × String :=
  (if truthyS cfg.host then cfg.host.getD ("") else
     if truthyS cfg.server then cfg.server.getD ("") else ("localhost"),
   if truthyI cfg.port then cfg.port.getD 0 else getDefaultPort ty,
   if truthyS cfg.database then cfg.database.getD ("") else ("no_database"),
   if truthyS cfg.user then cfg.user.getD ("") else ("no_user"),
   match cfg.options with
   | some o => stringifyOpts o
   | none => ("\x7b\x7d"))

/-- One `DatabaseConnection` object in the registry, identified by the
    construction-time arguments plus a fresh identity token. -/
structure Conn where
  ty : String
  cfg : Cfg
  cid : Nat
deriving DecidableEq

/-- The registry state: the `connections` map (insertion-ordered, unique
    keys, as a JS `Map`) plus a freshness counter for object identity. -/
structure St where
  entries : List (String × Conn)
  nextId : Nat
deriving DecidableEq

def lookupConn (key : String) : List (String × Conn) → Option Conn
  | [] => none
  | (k, c) :: rest => if k = key then some c else lookupConn key rest

def removeEntry (key : String) : List (String × Conn) → List (String × Conn)
  | [] => []
  | (k, c) :: rest => if k = key then rest else (k, c) :: removeEntry key rest

/-- `getConnection` (lines 89-98): construct-once per cache key, then
    always return the cached object. -/
def getConnection (ty : String) (cfg : Cfg) (st : St) : Conn × St :=
  match lookupConn (getConnectionKey ty cfg) st.entries with
  | some c => (c, st)
  | none =>
      let c : Conn := ⟨ty, cfg, st.nextId⟩
      (c, ⟨st.entries ++ [(getConnectionKey ty cfg, c)], st.nextId + 1⟩)

/-- `removeConnection` (lines 101-109): best-effort close (not observable
    here) and delete the entry under the key, if any. -/
def removeConnection (ty : String) (cfg : Cfg) (st : St) : St :=
  ⟨removeEntry (getConnectionKey ty cfg) st.entries, st.nextId⟩

-- ### Connection overrides (applyConnectionOverrides, lines 485-500)

/-- The `connection` override argument of a request. -/
structure OverrideCfg where
  connectionString : Option String
  host : Option String
  port : Option Int
  user : Option String
  password : Option String
  database : Option String
deriving DecidableEq

/-- `applyConnectionOverrides`: no override object, or an override carrying a
    truthy `connectionString`, leaves the config untouched; otherwise each
    field is merged with JS `||` and the result is re-normalized for
    SQL Server. -/
def applyConnectionOverrides (cfg : Cfg) (ty : String) (connection : Option OverrideCfg) : Cfg :=
  match connection with
  | none => cfg
  | some o =>
      if truthyS o.connectionString then cfg
      else
        normalizeSqlServerConfig
          { cfg with
            host := orS o.host cfg.host,
            port := orI o.port cfg.port,
            user := orS o.user cfg.user,
            password := orS o.password cfg.password,
            database := orS o.database cfg.database } ty

-- ### Retry executor (isRetryableError / executeWithRetry, lines 508-568)

/-- A JS error value, by its `message` and `code` fields (absent = `""`). -/
structure DbErr where
  message : String
  code : String
deriving DecidableEq

/-- Case-insensitive character comparison (the `i` regex flag). -/
def lowEq (a b : Char) : Bool :=
  a.toLower = b.toLower

def startsCI : List Char → List Char → Bool
  | [], _ => true
  | _ :: _, [] => false
  | a :: as, b :: bs => lowEq a b && startsCI as bs

/-- Case-insensitive substring containment (a plain `/pattern/i` test). -/
def containsCI (needle : List Char) : List Char → Bool
  | [] => needle.isEmpty
  | c :: rest => startsCI needle (c :: rest) || containsCI needle rest

/-- JS regex line terminators, which `.` never matches. -/
def isLineTerm (c : Char) : Bool :=
  c = '\n' || c = '\r' || c = '\u2028' || c = '\u2029'

/-- `.*needle` matches at this position: the needle after any run of
    non-line-terminator characters. -/
def dotStarThen (needle : List Char) : List Char → Bool
  | [] => needle.isEmpty
  | c :: rest => startsCI needle (c :: rest) || (!isLineTerm c && dotStarThen needle rest)

/-- `/first.*second/i` matches somewhere in the text. -/
def seqCI (first second : List Char) : List Char → Bool
  | [] => false
  | c :: rest =>
      (startsCI first (c :: rest) && dotStarThen second ((c :: rest).drop first.length)) ||
      seqCI first second rest

/-- The `retryablePatterns` list: plain substrings or `a.*b` pairs. -/
inductive RetryPat where
  | sub : String → RetryPat
  | chain : String → String → RetryPat
deriving DecidableEq

def retryablePatterns : List RetryPat :=
  [.sub ("ECONNRESET"), .sub ("ECONNREFUSED"), .sub ("ETIMEDOUT"),
   .sub ("PROTOCOL_CONNECTION_LOST"),
   .chain ("connection") ("lost"), .chain ("connection") ("closed"),
   .chain ("connection") ("terminated"),
   .sub ("Connection is not connected"),
   .sub ("Cannot enqueue Query after fatal error"),
   .sub ("Cannot enqueue Query after invoking quit"),
   .sub ("EPIPE"), .sub ("socket hang up"),
   .sub ("Client has encountered a connection error")]

def testRetryPat (p : RetryPat) (s : List Char) : Bool :=
  match p with
  | .sub needle => containsCI needle.data s
  | .chain a b => seqCI a.data b.data s

/-- `isRetryableError` (lines 508-531): some pattern matches the error's
    message or code. -/
def isRetryableError (e : DbErr) : Bool :=
  retryablePatterns.any (fun p => testRetryPat p e.message.data || testRetryPat p e.code.data)

/-- `RETRY_CONFIG` (lines 57-63). -/
structure RetryConfig where
  maxRetries : Nat
  initialDelayMs : Nat
  maxDelayMs : Nat
  backoffMultiplier : Nat
deriving DecidableEq

def RETRY_CONFIG : RetryConfig :=
  ⟨3, 100, 2000, 2⟩

/-- The observable outcome of a retry run: the surfaced result, the registry
    state, the back-off sleeps in order, and the number of attempts made. -/
structure RetryOutcome (α : Type) where
  result : Except DbErr α
  st : St
  sleeps : List Nat
  attempts : Nat

/-- Loop body of `executeWithRetry` (lines 534-568).  The operation is an
    oracle giving each attempt's outcome.  The fuel equals the remaining
    loop iterations; the fuel-exhausted case mirrors the (unreachable)
    trailing `throw lastError`. -/
def executeWithRetryAux (op : Nat → Except DbErr α) (ty : String) (cfg : Cfg) :
    Nat → Nat → Nat → Option DbErr → St → List Nat → RetryOutcome α
  | 0, attempt, _, lastErr, st, acc =>
      ⟨.error (lastErr.getD ⟨("undefined"), ("")⟩), st, acc, attempt - 1⟩
  | fuel + 1, attempt, delay, _, st, acc =>
      match op attempt with
      | .ok v => ⟨.ok v, st, acc, attempt⟩
      | .error e =>
          if !isRetryableError e || attempt = RETRY_CONFIG.maxRetries then
            ⟨.error e, st, acc, attempt⟩
          else
            executeWithRetryAux op ty cfg fuel (attempt + 1)
              (min (delay * RETRY_CONFIG.backoffMultiplier) RETRY_CONFIG.maxDelayMs)
              (some e) (removeConnection ty cfg st) (acc ++ [delay])

/-- `executeWithRetry` (lines 534-568): up to `maxRetries` attempts starting
    at `initialDelay`, evicting the cached connection before each retry. -/
def executeWithRetry (op : Nat → Except DbErr α) (ty : String) (cfg : Cfg) (st : St) :
    RetryOutcome α :=
  executeWithRetryAux op ty cfg RETRY_CONFIG.maxRetries 1 RETRY_CONFIG.initialDelayMs none st []

-- ### Request orchestration (executeDatabaseQuery, lines 570-636)

/-- A tool result: the single text content item plus the `isError` flag
    (absent flag = `false`). -/
structure ToolResult where
  text : String
  isError : Bool
deriving DecidableEq

/-- The driver's `query` result shape: a `results` array (rows pre-rendered
    to JSON here), a non-array result object (pre-rendered), or a value that
    is not an object. -/
inductive QueryRes where
  | rows : List String → QueryRes
  | other : String → QueryRes
  | invalid : QueryRes
deriving DecidableEq

/-- `JSON.stringify(rows, null, 2)` over pre-rendered row strings. -/
def renderJsonArray (rows : List String) : String :=
  ("[\n  ") ++ String.intercalate (",\n  ") rows ++ ("\n]")

/-- The result-formatting tail of `executeDatabaseQuery` (lines 603-629). -/
def formatQueryResult (res : QueryRes) : ToolResult :=
  match res with
  | .invalid => ⟨("❌ Database driver trả về result không hợp lệ"), true⟩
  | .rows [] => ⟨("[]"), false⟩
  | .rows rs => ⟨renderJsonArray rs, false⟩
  | .other s => ⟨s, false⟩

/-- Driver interactions observable from the orchestrator: pool-connect and
    query calls, the back-off sleeps, and attempts consumed. -/
structure Trace where
  connects : Nat
  queries : Nat
  sleeps : List Nat
  attempts : Nat
deriving DecidableEq

def emptyTrace : Trace :=
  ⟨0, 0, [], 0⟩

/-- `query.trim().split("\n")[0]`. -/
def firstLine (l : List Char) : List Char :=
  l.takeWhile (fun c => c ≠ '\n')

/-- The policy-violation message built at lines 572-575. -/
def dmlWarningMsg (q : String) : String :=
  ("⚠️  DML/DDL DETECTED: ") ++ String.mk (firstLine (jsTrim q.data)) ++
  ("\n\n❌ AI không được tự ý thực hiện thao tác này\n✅ Cần xin phép người dùng trước khi tiếp tục")

/-- The retry loop as instantiated by `executeDatabaseQuery`: the operation
    closure performs `getConnection` (mutating the registry) and then
    `db.query`, whose outcome per attempt is the oracle's answer.  Each
    attempt invokes the driver's pool `connect` and one query. -/
def queryRetryAux (oracle : Nat → Except DbErr QueryRes) (ty : String) (cfg : Cfg) :
    Nat → Nat → Nat → Option DbErr → St → Trace → Except DbErr QueryRes × St × Trace
  | 0, _, _, lastErr, st, tr =>
      (.error (lastErr.getD ⟨("undefined"), ("")⟩), st, tr)
  | fuel + 1, attempt, delay, _, st, tr =>
      let st1 := (getConnection ty cfg st).2
      let tr1 : Trace :=
        { tr with connects := tr.connects + 1, queries := tr.queries + 1,
                  attempts := tr.attempts + 1 }
      match oracle attempt with
      | .ok v => (.ok v, st1, tr1)
      | .error e =>
          if !isRetryableError e || attempt = RETRY_CONFIG.maxRetries then
            (.error e, st1, tr1)
          else
            queryRetryAux oracle ty cfg fuel (attempt + 1)
              (min (delay * RETRY_CONFIG.backoffMultiplier) RETRY_CONFIG.maxDelayMs)
              (some e) (removeConnection ty cfg st1)
              { tr1 with sleeps := tr1.sleeps ++ [delay] }

/-- `executeDatabaseQuery` (lines 570-636): the safety gate first, then the
    retried query with result formatting; failures come back as an
    `isError` tool result. -/
def executeDatabaseQuery (oracle : Nat → Except DbErr QueryRes) (ty : String) (cfg : Cfg)
    (q : String) (st : St) : ToolResult × St × Trace :=
  if isDMLDDLQuery q then
    (⟨dmlWarningMsg q, true⟩, st, emptyTrace)
  else
    match queryRetryAux oracle ty cfg RETRY_CONFIG.maxRetries 1
        RETRY_CONFIG.initialDelayMs none st emptyTrace with
    | (.ok res, st1, tr) => (formatQueryResult res, st1, tr)
    | (.error e, st1, tr) => (⟨("❌ ") ++ e.message, true⟩, st1, tr)

/-- `toUpperCase()` over ASCII, written on the character list so that it
    reduces in the kernel. -/
def upperStr (s : String) : String :=
  String.mk (s.data.map Char.toUpper)

-- ### Configuration resolver (parseConnectionStringEnv / parseNumberedEnv /
-- ### parseLegacyEnv / parseMultipleConnections, lines 179-276)

/-- The environment, as the finite map `process.env` (values may be ""). -/
abbrev Env : Type :=
  List (String × String)

def lookupEnv (key : String) : Env → Option String
  | [] => none
  | (k, v) :: rest => if k = key then some v else lookupEnv key rest

/-- The alias table built by resolution: a JS object, insertion-ordered. -/
abbrev AliasTable : Type :=
  List (String × Cfg)

/-- JS object property assignment: overwrite in place or append. -/
def setAlias : AliasTable → String → Cfg → AliasTable
  | [], k, v => [(k, v)]
  | (k0, v0) :: rest, k, v =>
      if k0 = k then (k, v) :: rest else (k0, v0) :: setAlias rest k v

def aliasKeys (t : AliasTable) : List String :=
  t.map Prod.fst

/-- JS `String.prototype.split` on a single character. -/
def splitOnChar (sep : Char) : List Char → List (List Char)
  | [] => [[]]
  | c :: cs =>
      if c = sep then [] :: splitOnChar sep cs
      else
        match splitOnChar sep cs with
        | [] => [[c]]
        | g :: gs => (c :: g) :: gs

/-- The entry list of `T_CONNECTIONS`: split on `;`, trim, drop empties
    (lines 183-186). -/
def connEntries (env : Env) (ty : String) : List (List Char) :=
  match lookupEnv (upperStr ty ++ ("_CONNECTIONS")) env with
  | none => []
  | some s => ((splitOnChar ';' s.data).map jsTrim).filter (fun l => !l.isEmpty)

/-- Processing of one `alias=url` entry (lines 187-200).  The URL parser
    (`parseConnectionString`, backed by `new URL`) is abstract: `parseCS`
    answers with a parsed config or a `ConfigError` message.  An entry
    without both a truthy alias and a truthy url part is skipped silently;
    a parse failure is recorded in the error list. -/
def csStep (parseCS : String → String → Except String Cfg) (ty : String)
    (acc : AliasTable × List String) (entry : List Char) : AliasTable × List String :=
  let parts := splitOnChar '=' entry
  let aliasPart := parts.headD []
  match (parts.drop 1).head? with
  | none => acc
  | some url =>
      if aliasPart.isEmpty || url.isEmpty then acc
      else
        match parseCS (String.mk (jsTrim url)) ty with
        | .ok cfg => (setAlias acc.1 (String.mk (jsTrim aliasPart)) cfg, acc.2)
        | .error m =>
            (acc.1, acc.2 ++
              [("Invalid connection string for ") ++ String.mk aliasPart ++ (": ") ++ m])

/-- `parseConnectionStringEnv` (lines 179-203): fold the entry list,
    accumulating aliases and per-entry parse errors; never fails. -/
def parseConnectionStringEnv (parseCS : String → String → Except String Cfg) (env : Env)
    (ty : String) (conns : AliasTable) (errs : List String) : AliasTable × List String :=
  (connEntries env ty).foldl (csStep parseCS ty) (conns, errs)

/-- JS `parseInt` (decimal fragment): optional sign, leading digits; `NaN`
    (no digits) is `none`. -/
def digitsVal (l : List Char) : Option Nat :=
  let ds := l.takeWhile Char.isDigit
  if ds.isEmpty then none
  else some (ds.foldl (fun a c => a * 10 + (c.toNat - 48)) 0)

def jsParseInt (s : String) : Option Int :=
  match s.data.dropWhile isJsWS with
  | '-' :: rest => (digitsVal rest).map (fun n => -(n : Int))
  | '+' :: rest => (digitsVal rest).map (fun n => (n : Int))
  | t => (digitsVal t).map (fun n => (n : Int))

def envDbHostName (ty : String) (i : Nat) : String :=
  upperStr ty ++ ("_DB") ++ toString i ++ ("_HOST")

def envDbPortName (ty : String) (i : Nat) : String :=
  upperStr ty ++ ("_DB") ++ toString i ++ ("_PORT")

def envDbUserName (ty : String) (i : Nat) : String :=
  upperStr ty ++ ("_DB") ++ toString i ++ ("_USER")

def envDbPasswordName (ty : String) (i : Nat) : String :=
  upperStr ty ++ ("_DB") ++ toString i ++ ("_PASSWORD")

def envDbDatabaseName (ty : String) (i : Nat) : String :=
  upperStr ty ++ ("_DB") ++ toString i ++ ("_DATABASE")

/-- The config built for numbered instance `dbIndex` (lines 218-224). -/
def numberedCfg (env : Env) (ty : String) (dbIndex : Nat) (host : String) : Cfg :=
  { host := some host,
    server := none,
    port := some (jsOrIntD ((lookupEnv (envDbPortName ty dbIndex) env).bind jsParseInt)
      (getDefaultPort ty)),
    user := some (jsOrStrD (lookupEnv (envDbUserName ty dbIndex) env) ("root")),
    password := some ((lookupEnv (envDbPasswordName ty dbIndex) env).getD ("")),
    database := lookupEnv (envDbDatabaseName ty dbIndex) env,
    options := none }

/-- Loop body of `parseNumberedEnv` (lines 205-232).  The `while (true)`
    scan stops at the first index whose `_HOST` variable is falsy; a
    validation failure propagates as a thrown error.  The fuel bounds the
    scan; `parseNumberedEnv` supplies one unit more than the number of
    environment entries, enough to reach the first gap. -/
def parseNumberedEnvAux (env : Env) (ty : String) :
    Nat → Nat → AliasTable → Except String AliasTable
  | 0, _, conns => .ok conns
  | fuel + 1, dbIndex, conns =>
      match lookupEnv (envDbHostName ty dbIndex) env with
      | none => .ok conns
      | some h =>
          if h.isEmpty then .ok conns
          else
            match validateConnectionConfig
                (normalizeSqlServerConfig (numberedCfg env ty dbIndex h) ty) ty with
            | .error m => .error m
            | .ok cfg2 =>
                parseNumberedEnvAux env ty fuel (dbIndex + 1)
                  (setAlias conns (("db") ++ toString dbIndex) cfg2)

def parseNumberedEnv (env : Env) (ty : String) (conns : AliasTable) :
    Except String AliasTable :=
  parseNumberedEnvAux env ty (env.length + 1) 1 conns

/-- `parseLegacyEnv` (lines 234-258): only when no alias resolved yet, read
    the unnumbered variables into alias `default` (triggered by a truthy
    host or database). -/
def parseLegacyEnv (env : Env) (ty : String) (conns : AliasTable) :
    Except String AliasTable :=
  if !conns.isEmpty then .ok conns
  else
    let host := lookupEnv (upperStr ty ++ ("_HOST")) env
    let database := lookupEnv (upperStr ty ++ ("_DATABASE")) env
    if truthyS host || truthyS database then
      let cfg : Cfg :=
        { host := some (jsOrStrD host ("localhost")),
          server := none,
          port := some (jsOrIntD ((lookupEnv (upperStr ty ++ ("_PORT")) env).bind jsParseInt)
            (getDefaultPort ty)),
          user := some (jsOrStrD (lookupEnv (upperStr ty ++ ("_USER")) env) ("root")),
          password := some ((lookupEnv (upperStr ty ++ ("_PASSWORD")) env).getD ("")),
          database := database,
          options := none }
      match validateConnectionConfig (normalizeSqlServerConfig cfg ty) ty with
      | .error m => .error m
      | .ok cfg2 => .ok (setAlias conns ("default") cfg2)
    else .ok conns

/-- The summary error raised when nothing resolved but parse errors exist
    (lines 268-273). -/
def noValidConnectionsMsg (ty : String) (errs : List String) : String :=
  ("❌ Không có connection nào hợp lệ cho ") ++ upperStr ty ++ (":\n") ++
    String.intercalate ("\n") (errs.map (fun e => ("• ") ++ e))

/-- `parseMultipleConnections` (lines 260-276): run the three tiers, then
    fail with the summary error exactly when no alias resolved and at least
    one connection-string parse error was recorded. -/
def parseMultipleConnections (parseCS : String → String → Except String Cfg) (env : Env)
    (ty : String) : Except String AliasTable :=
  let r1 := parseConnectionStringEnv parseCS env ty [] []
  match parseNumberedEnv env ty r1.1 with
  | .error m => .error m
  | .ok c2 =>
      match parseLegacyEnv env ty c2 with
      | .error m => .error m
      | .ok c3 =>
          if c3.isEmpty && !r1.2.isEmpty then .error (noValidConnectionsMsg ty r1.2)
          else .ok c3

/-- Component-wise decidable equality for `Except`, used to evaluate the
    resolver on concrete environments. -/
def exceptDecEq {ε α : Type} [DecidableEq ε] [DecidableEq α] :
    (a b : Except ε α) → Decidable (a = b)
  | .error e1, .error e2 =>
      if h : e1 = e2 then isTrue (by rw [h])
      else isFalse (fun hc => h (Except.error.inj hc))
  | .error _, .ok _ => isFalse (fun hc => Except.noConfusion hc)
  | .ok _, .error _ => isFalse (fun hc => Except.noConfusion hc)
  | .ok v1, .ok v2 =>
      if h : v1 = v2 then isTrue (by rw [h])
      else isFalse (fun hc => h (Except.ok.inj hc))

instance {ε α : Type} [DecidableEq ε] [DecidableEq α] : DecidableEq (Except ε α) :=
  exceptDecEq

/-- The per-entry error message recorded for a failed connection-string
    parse (line 196). -/
def csErrMsg (entry : List Char) (m : String) : String :=
  ("Invalid connection string for ") ++ String.mk ((splitOnChar '=' entry).headD []) ++
    (": ") ++ m

-- ### Concrete fixtures used by counterexamples and witnesses

def cfgW : Cfg :=
  ⟨some ("h"), none, some 1, some ("u"), some ("secret"), some ("d"), none⟩

def cfgC7a : Cfg :=
  ⟨some ("h"), none, some 1, some ("u_x"), none, some ("d"), none⟩

def cfgC7b : Cfg :=
  ⟨some ("h"), none, some 1, some ("x"), none, some ("d_u"), none⟩

def envC5 : Env :=
  [(("MYSQL_DB1_HOST"), ("h")), (("MYSQL_DB1_PORT"), ("70000"))]

def env6a : Env :=
  [(("MYSQL_DB1_HOST"), ("a")), (("MYSQL_DB2_HOST"), ("b"))]

def env6b : Env :=
  [(("MYSQL_DB1_HOST"), ("a")), (("MYSQL_DB3_HOST"), ("c"))]

def envCS : Env :=
  [(("MYSQL_CONNECTIONS"), ("a=bad;b=good"))]

/-- A parser oracle that is never consulted. -/
def pfU : String → String → Except String Cfg :=
  fun _ _ => .error ("unused")

/-- A parser oracle accepting exactly the url `good`. -/
def pfG : String → String → Except String Cfg :=
  fun u _ => if u = ("good") then .ok cfgC7a else .error ("boom")

-- ### Registry lemmas

lemma lookupConn_append_self (key : String) (c : Conn) (l : List (String × Conn))
    (h : lookupConn key l = none) : lookupConn key (l ++ [(key, c)]) = some c := by
  induction l with
  | nil => simp [lookupConn]
  | cons hd tl ih =>
      obtain ⟨k0, c0⟩ := hd
      by_cases hk : k0 = key
      · simp [lookupConn, hk] at h
      · simp only [List.cons_append, lookupConn, hk, if_false] at h ⊢
        exact ih h

lemma lookupConn_append_other (k key : String) (hk : k ≠ key) (c : Conn)
    (l : List (String × Conn)) :
    lookupConn k (l ++ [(key, c)]) = lookupConn k l := by
  induction l with
  | nil => simp [lookupConn, Ne.symm hk]
  | cons hd tl ih =>
      obtain ⟨k0, c0⟩ := hd
      by_cases h0 : k0 = k
      · simp [lookupConn, h0]
      · simp only [List.cons_append, lookupConn, h0, if_false]
        exact ih

lemma getConnection_some (ty : String) (cfg : Cfg) (st : St) (c0 : Conn)
    (h : lookupConn (getConnectionKey ty cfg) st.entries = some c0) :
    getConnection ty cfg st = (c0, st) := by
  simp [getConnection, h]

lemma getConnection_none (ty : String) (cfg : Cfg) (st : St)
    (h : lookupConn (getConnectionKey ty cfg) st.entries = none) :
    getConnection ty cfg st =
      (⟨ty, cfg, st.nextId⟩,
       ⟨st.entries ++ [(getConnectionKey ty cfg, ⟨ty, cfg, st.nextId⟩)], st.nextId + 1⟩) := by
  simp [getConnection, h]

/-- Two configs with the same cache key share the cached connection object. -/
lemma getConnection_key_eq (ty : String) (c1 c2 : Cfg) (st : St)
    (h : getConnectionKey ty c1 = getConnectionKey ty c2) :
    (getConnection ty c2 (getConnection ty c1 st).2).1 = (getConnection ty c1 st).1 := by
  cases hl : lookupConn (getConnectionKey ty c1) st.entries with
  | some c0 =>
      rw [getConnection_some ty c1 st c0 hl]
      rw [getConnection_some ty c2 st c0 (by rw [← h]; exact hl)]
  | none =>
      rw [getConnection_none ty c1 st hl]
      have h2 : lookupConn (getConnectionKey ty c2)
          (st.entries ++ [(getConnectionKey ty c1, (⟨ty, c1, st.nextId⟩ : Conn))])
            = some ⟨ty, c1, st.nextId⟩ := by
        rw [← h]
        exact lookupConn_append_self _ _ _ hl
      exact congrArg Prod.fst (getConnection_some ty c2 _ _ h2)

-- ### Claims C7, C8, C9: cache key and registry

/-- C7 (counterexample): `getConnectionKey` is not collision-free — two
    different configs (user `u_x` with database `d`, versus user `x` with
    database `d_u`) produce the identical key
    `mysql_h_1_d_u_x_{}`, because the key is a plain underscore-joined
    concatenation. -/
theorem getConnectionKey_collision :
    cfgC7a ≠ cfgC7b ∧
    getConnectionKey ("mysql") cfgC7a = getConnectionKey ("mysql") cfgC7b := by
  decide

/-- C7 (amended): `getConnectionKey` is a deterministic function of the
    normalized field tuple (host-or-server-or-localhost, port-or-default,
    database-or-placeholder, user-or-placeholder, serialized options): any
    two configs agreeing on those normalized fields map to the same key and
    therefore hit the same cached adapter; distinct configs, however, may
    collide (the key ignores the password, and the underscore-joined
    concatenation is ambiguous). -/
theorem getConnectionKey_normalized_determinism (ty : String) (c1 c2 : Cfg) (st : St)
    (h : normalizedKeyFields ty c1 = normalizedKeyFields ty c2) :
    getConnectionKey ty c1 = getConnectionKey ty c2 ∧
    (getConnection ty c2 (getConnection ty c1 st).2).1 = (getConnection ty c1 st).1 := by
  have h' := h
  simp only [normalizedKeyFields, Prod.mk.injEq] at h'
  obtain ⟨h1, h2, h3, h4, h5⟩ := h'
  have hkey : getConnectionKey ty c1 = getConnectionKey ty c2 := by
    simp only [getConnectionKey]
    rw [h1, h2, h3, h4, h5]
  exact ⟨hkey, getConnection_key_eq ty c1 c2 st hkey⟩

/-- C7 amended witness: two configs differing only in password agree on the
    normalized fields, hence share a key and the cached connection. -/
theorem getConnectionKey_normalized_determinism_witness :
    getConnectionKey ("mysql") cfgW
        = getConnectionKey ("mysql") { cfgW with password := some ("other") } ∧
    (getConnection ("mysql") { cfgW with password := some ("other") }
        ((getConnection ("mysql") cfgW ⟨[], 0⟩).2)).1
      = (getConnection ("mysql") cfgW ⟨[], 0⟩).1 :=
  getConnectionKey_normalized_determinism ("mysql") cfgW
    { cfgW with password := some ("other") } ⟨[], 0⟩ (by decide)

/-- C8: the cache key ignores the password entirely — configs differing only
    in password share the key, so two `getConnection` calls with them share
    one connection cache entry. -/
theorem getConnectionKey_ignores_password (ty : String) (c : Cfg)
    (p1 p2 : Option String) (st : St) :
    getConnectionKey ty { c with password := p1 }
        = getConnectionKey ty { c with password := p2 } ∧
    (getConnection ty { c with password := p2 }
        ((getConnection ty { c with password := p1 } st).2)).1
      = (getConnection ty { c with password := p1 } st).1 := by
  have hkey : getConnectionKey ty { c with password := p1 }
      = getConnectionKey ty { c with password := p2 } := by
    cases c
    simp [getConnectionKey]
  exact ⟨hkey, getConnection_key_eq ty _ _ st hkey⟩

/-- C9: `getConnection` mutates at most the entry under the computed key:
    a cache hit returns the existing object with the whole state unchanged;
    a miss appends exactly one new entry under that key, leaving every other
    key's binding unchanged. -/
theorem getConnection_frame (ty : String) (cfg : Cfg) (st : St) :
    (∀ c0, lookupConn (getConnectionKey ty cfg) st.entries = some c0 →
       getConnection ty cfg st = (c0, st)) ∧
    (lookupConn (getConnectionKey ty cfg) st.entries = none →
       (getConnection ty cfg st).2.entries
           = st.entries ++ [(getConnectionKey ty cfg, (getConnection ty cfg st).1)] ∧
       ∀ k, k ≠ getConnectionKey ty cfg →
         lookupConn k (getConnection ty cfg st).2.entries = lookupConn k st.entries) := by
  refine ⟨fun c0 h => getConnection_some ty cfg st c0 h, fun h => ?_⟩
  rw [getConnection_none ty cfg st h]
  exact ⟨rfl, fun k hk => lookupConn_append_other k _ hk _ _⟩

/-- C9 witness: on an empty registry a miss inserts exactly the one entry;
    on a registry already holding the key, the state is returned unchanged
    together with the existing object. -/
theorem getConnection_frame_witness :
    (getConnection ("mysql") cfgW ⟨[], 0⟩).2.entries
        = [(getConnectionKey ("mysql") cfgW, (getConnection ("mysql") cfgW ⟨[], 0⟩).1)] ∧
    getConnection ("mysql") cfgW
        ⟨[(getConnectionKey ("mysql") cfgW, ⟨("mysql"), cfgW, 0⟩)], 5⟩
      = (⟨("mysql"), cfgW, 0⟩, ⟨[(getConnectionKey ("mysql") cfgW, ⟨("mysql"), cfgW, 0⟩)], 5⟩) := by
  constructor
  · have h := (getConnection_frame ("mysql") cfgW ⟨[], 0⟩).2 rfl
    simpa using h.1
  · exact (getConnection_frame ("mysql") cfgW
      ⟨[(getConnectionKey ("mysql") cfgW, ⟨("mysql"), cfgW, 0⟩)], 5⟩).1
      ⟨("mysql"), cfgW, 0⟩ (by simp [lookupConn])

-- ### Claim C10: connection overrides

lemma normalize_password (c : Cfg) (ty : String) :
    (normalizeSqlServerConfig c ty).password = c.password := by
  unfold normalizeSqlServerConfig
  split <;> rfl

lemma normalize_user (c : Cfg) (ty : String) :
    (normalizeSqlServerConfig c ty).user = c.user := by
  unfold normalizeSqlServerConfig
  split <;> rfl

lemma normalize_database (c : Cfg) (ty : String) :
    (normalizeSqlServerConfig c ty).database = c.database := by
  unfold normalizeSqlServerConfig
  split <;> rfl

lemma normalize_port (c : Cfg) (ty : String) :
    (normalizeSqlServerConfig c ty).port = c.port := by
  unfold normalizeSqlServerConfig
  split <;> rfl

lemma orS_falsy (a b : Option String) (h : truthyS a = false) : orS a b = b := by
  simp [orS, h]

lemma orI_falsy (a b : Option Int) (h : truthyI a = false) : orI a b = b := by
  simp [orI, h]

/-- C10: a falsy override field (absent, empty string, or zero) never
    overrides the resolved config — in particular `password = ""` keeps the
    resolved password — and an override carrying a truthy
    `connectionString` makes the partial field overrides inert, the config
    coming back unchanged.  For the host/server fields the resolved config
    is assumed already normalized for SQL Server (as every resolution path
    guarantees), since re-normalization would otherwise move a raw `host`
    into `server`. -/
theorem applyConnectionOverrides_falsy_keeps (ty : String) (cfg : Cfg) (o : OverrideCfg) :
    (truthyS o.connectionString = true → applyConnectionOverrides cfg ty (some o) = cfg) ∧
    (truthyS o.connectionString = false →
      (truthyS o.password = false →
         (applyConnectionOverrides cfg ty (some o)).password = cfg.password) ∧
      (truthyS o.user = false →
         (applyConnectionOverrides cfg ty (some o)).user = cfg.user) ∧
      (truthyS o.database = false →
         (applyConnectionOverrides cfg ty (some o)).database = cfg.database) ∧
      (truthyI o.port = false →
         (applyConnectionOverrides cfg ty (some o)).port = cfg.port) ∧
      (truthyS o.host = false → (ty = ("sqlserver") → truthyS cfg.host = false) →
         (applyConnectionOverrides cfg ty (some o)).host = cfg.host ∧
         (applyConnectionOverrides cfg ty (some o)).server = cfg.server)) := by
  constructor
  · intro hcs
    simp [applyConnectionOverrides, hcs]
  · intro hcs
    have hdef : applyConnectionOverrides cfg ty (some o) =
        normalizeSqlServerConfig
          { cfg with
            host := orS o.host cfg.host,
            port := orI o.port cfg.port,
            user := orS o.user cfg.user,
            password := orS o.password cfg.password,
            database := orS o.database cfg.database } ty := by
      simp [applyConnectionOverrides, hcs]
    refine ⟨fun hp => ?_, fun hu => ?_, fun hd => ?_, fun hpt => ?_, fun hh hnorm => ?_⟩
    · rw [hdef, normalize_password]
      exact orS_falsy _ _ hp
    · rw [hdef, normalize_user]
      exact orS_falsy _ _ hu
    · rw [hdef, normalize_database]
      exact orS_falsy _ _ hd
    · rw [hdef, normalize_port]
      exact orI_falsy _ _ hpt
    · rw [hdef]
      have hhost : orS o.host cfg.host = cfg.host := orS_falsy _ _ hh
      unfold normalizeSqlServerConfig
      by_cases hty : ty = ("sqlserver")
      · have : truthyS cfg.host = false := hnorm hty
        simp [hty, hhost, this]
      · simp [hty, hhost]

/-- C10 witness: with a `mysql` config holding password `secret` and an
    override supplying `password = ""`, `user = ""`, `port = 0`, the
    resolved values survive; with a truthy `connectionString` the config is
    returned unchanged. -/
theorem applyConnectionOverrides_falsy_keeps_witness :
    (applyConnectionOverrides cfgW ("mysql")
        (some ⟨none, none, some 0, some (""), some (""), none⟩)).password
      = some ("secret") ∧
    (applyConnectionOverrides cfgW ("mysql")
        (some ⟨none, none, some 0, some (""), some (""), none⟩)).port = some 1 ∧
    applyConnectionOverrides cfgW ("mysql")
        (some ⟨some ("mysql://u:p@h2/d2"), some ("h2"), none, none, none, none⟩) = cfgW := by
  have h1 := (applyConnectionOverrides_falsy_keeps ("mysql") cfgW
    ⟨none, none, some 0, some (""), some (""), none⟩).2 (by decide)
  have h2 := (applyConnectionOverrides_falsy_keeps ("mysql") cfgW
    ⟨some ("mysql://u:p@h2/d2"), some ("h2"), none, none, none, none⟩).1 (by decide)
  exact ⟨by rw [h1.1 (by decide)]; rfl, by rw [h1.2.2.2.1 (by decide)]; rfl, h2⟩

-- ### Claims C3, C4: retry executor

lemma executeWithRetryAux_attempts_le {α : Type} (op : Nat → Except DbErr α)
    (ty : String) (cfg : Cfg) :
    ∀ fuel attempt delay lastErr st acc,
      (executeWithRetryAux op ty cfg fuel attempt delay lastErr st acc).attempts
        ≤ attempt + fuel - 1 := by
  intro fuel
  induction fuel with
  | zero =>
      intro attempt delay lastErr st acc
      simp [executeWithRetryAux]
  | succ n ih =>
      intro attempt delay lastErr st acc
      rw [executeWithRetryAux]
      cases hop : op attempt with
      | ok v =>
          show attempt ≤ attempt + (n + 1) - 1
          omega
      | error e =>
          dsimp only
          split
          · show attempt ≤ attempt + (n + 1) - 1
            omega
          · exact le_trans (ih _ _ _ _ _) (by omega)

/-- C3: with the fixed policy (3 attempts, 100ms initial delay, doubling,
    2000ms cap), three consecutive retryable failures make exactly three
    attempts with exactly the two back-off sleeps 100ms and 200ms, the
    third attempt's error is surfaced, and no run of the executor ever
    makes more than `maxRetries` attempts. -/
theorem executeWithRetry_three_transient {α : Type} (op : Nat → Except DbErr α)
    (ty : String) (cfg : Cfg) (st : St) (e1 e2 e3 : DbErr)
    (h1 : op 1 = .error e1) (hr1 : isRetryableError e1 = true)
    (h2 : op 2 = .error e2) (hr2 : isRetryableError e2 = true)
    (h3 : op 3 = .error e3) (hr3 : isRetryableError e3 = true) :
    (executeWithRetry op ty cfg st).sleeps = [100, 200] ∧
    (executeWithRetry op ty cfg st).attempts = 3 ∧
    (executeWithRetry op ty cfg st).result = op 3 ∧
    ∀ (op2 : Nat → Except DbErr α) (st2 : St),
      (executeWithRetry op2 ty cfg st2).attempts ≤ RETRY_CONFIG.maxRetries := by
  have hrun : executeWithRetry op ty cfg st =
      ⟨.error e3, removeConnection ty cfg (removeConnection ty cfg st), [100, 200], 3⟩ := by
    simp [executeWithRetry, executeWithRetryAux, RETRY_CONFIG, h1, hr1, h2, hr2, h3, hr3]
  refine ⟨by rw [hrun], by rw [hrun], by rw [hrun, h3], fun op2 st2 => ?_⟩
  have := executeWithRetryAux_attempts_le op2 ty cfg RETRY_CONFIG.maxRetries 1
    RETRY_CONFIG.initialDelayMs none st2 []
  simpa [executeWithRetry, RETRY_CONFIG] using this

/-- C3 witness: an operation failing every attempt with `read ECONNRESET`. -/
theorem executeWithRetry_three_transient_witness :
    (executeWithRetry (fun _ => (.error ⟨("read ECONNRESET"), ("")⟩ : Except DbErr Unit))
        ("mysql") cfgW ⟨[], 0⟩).sleeps = [100, 200] ∧
    (executeWithRetry (fun _ => (.error ⟨("read ECONNRESET"), ("")⟩ : Except DbErr Unit))
        ("mysql") cfgW ⟨[], 0⟩).attempts = 3 := by
  have h := executeWithRetry_three_transient
    (fun _ => (.error ⟨("read ECONNRESET"), ("")⟩ : Except DbErr Unit)) ("mysql") cfgW ⟨[], 0⟩
    ⟨("read ECONNRESET"), ("")⟩ ⟨("read ECONNRESET"), ("")⟩ ⟨("read ECONNRESET"), ("")⟩
    rfl (by decide) rfl (by decide) rfl (by decide)
  exact ⟨h.1, h.2.1⟩

/-- C4: a first failure classified non-retryable is propagated immediately —
    one attempt, no back-off sleep, and the registry state untouched (no
    eviction). -/
theorem executeWithRetry_nonretryable_immediate {α : Type} (op : Nat → Except DbErr α)
    (ty : String) (cfg : Cfg) (st : St) (e : DbErr)
    (h1 : op 1 = .error e) (h2 : isRetryableError e = false) :
    executeWithRetry op ty cfg st = ⟨.error e, st, [], 1⟩ := by
  simp [executeWithRetry, executeWithRetryAux, RETRY_CONFIG, h1, h2]

/-- C4 witness: a backend syntax error is not retried. -/
theorem executeWithRetry_nonretryable_immediate_witness :
    executeWithRetry
        (fun _ => (.error ⟨("You have an error in your SQL syntax"), ("ER_PARSE_ERROR")⟩
          : Except DbErr Unit)) ("mysql") cfgW ⟨[], 0⟩
      = ⟨.error ⟨("You have an error in your SQL syntax"), ("ER_PARSE_ERROR")⟩, ⟨[], 0⟩, [], 1⟩ :=
  executeWithRetry_nonretryable_immediate
    (fun _ => (.error ⟨("You have an error in your SQL syntax"), ("ER_PARSE_ERROR")⟩
      : Except DbErr Unit)) ("mysql") cfgW ⟨[], 0⟩
    ⟨("You have an error in your SQL syntax"), ("ER_PARSE_ERROR")⟩ rfl (by decide)

-- ### Claim C1: the safety gate short-circuits the orchestrator

/-- C1: whenever the gate classifies the query as mutating,
    `executeDatabaseQuery` answers the policy-violation message with
    `isError = true`, the registry state is returned untouched (no entry
    created or used), and the trace is empty: zero driver `connect` calls,
    zero `query` calls, no back-off sleep, zero retry attempts consumed. -/
theorem executeDatabaseQuery_blocks_mutating (oracle : Nat → Except DbErr QueryRes)
    (ty : String) (cfg : Cfg) (q : String) (st : St)
    (h : isDMLDDLQuery q = true) :
    executeDatabaseQuery oracle ty cfg q st
      = (⟨dmlWarningMsg q, true⟩, st, ⟨0, 0, [], 0⟩) := by
  simp [executeDatabaseQuery, h, emptyTrace]

/-- C1 witness: the request `backendType=mysql, query="DROP TABLE x"`
    produces the policy result with `isError=true` and an empty driver
    trace, for any driver behavior and any starting registry. -/
theorem executeDatabaseQuery_blocks_mutating_witness :
    executeDatabaseQuery (fun _ => .ok (.rows [])) ("mysql") cfgW ("DROP TABLE x") ⟨[], 0⟩
      = (⟨dmlWarningMsg ("DROP TABLE x"), true⟩, ⟨[], 0⟩, ⟨0, 0, [], 0⟩) :=
  executeDatabaseQuery_blocks_mutating (fun _ => .ok (.rows [])) ("mysql") cfgW
    ("DROP TABLE x") ⟨[], 0⟩ (by decide)

-- ### Claim C2: the DML/DDL classifier

lemma kwHere_head (rest : List Char) (h : kwHere rest = true) :
    ∃ c cs, rest = c :: cs ∧ isJsWS c = false := by
  rw [kwHere, List.any_eq_true] at h
  obtain ⟨kw, hkw, hat⟩ := h
  have hok : kwHeadNonWS kw = true :=
    (List.all_eq_true.mp (by decide : dmlKeywords.all kwHeadNonWS = true)) kw hkw
  rw [kwAt, Bool.and_eq_true] at hat
  obtain ⟨hs, _⟩ := hat
  cases kw with
  | nil => simp [kwHeadNonWS] at hok
  | cons k0 ks =>
      cases rest with
      | nil => simp [startsWithL] at hs
      | cons c cs =>
          rw [startsWithL, Bool.and_eq_true] at hs
          have hkc : k0 = c := by simpa using hs.1
          refine ⟨c, cs, rfl, ?_⟩
          rw [← hkc]
          simpa [kwHeadNonWS] using hok

lemma dropWhile_append_of_all {p : Char → Bool} (w rest : List Char)
    (hw : ∀ c ∈ w, p c = true) :
    (w ++ rest).dropWhile p = rest.dropWhile p := by
  induction w with
  | nil => rfl
  | cons c cs ih =>
      have hc : p c = true := hw c (by simp)
      simp only [List.cons_append, List.dropWhile_cons, hc, if_true]
      exact ih (fun d hd => hw d (by simp [hd]))

lemma matchFrom_iff (v : List Char) : matchFrom v = true ↔ mutatingAt v := by
  constructor
  · intro h
    refine ⟨v.takeWhile isJsWS, v.dropWhile isJsWS,
      (List.takeWhile_append_dropWhile isJsWS v).symm,
      fun c hc => List.mem_takeWhile_imp hc, h⟩
  · rintro ⟨w, rest, hv, hw, hk⟩
    obtain ⟨c, cs, hrest, hcws⟩ := kwHere_head rest hk
    rw [matchFrom, hv, dropWhile_append_of_all w rest hw, hrest,
      List.dropWhile_cons_of_neg (by simp [hcws])]
    rw [hrest] at hk
    exact hk

lemma scanAfterSep_iff (l : List Char) :
    scanAfterSep l = true ↔
      ∃ u c v, l = u ++ c :: v ∧ isSepChar c = true ∧ matchFrom v = true := by
  induction l with
  | nil =>
      simp only [scanAfterSep]
      constructor
      · intro h
        exact absurd h (by simp)
      · rintro ⟨u, c, v, hl, _, _⟩
        exact absurd hl (by simp)
  | cons a as ih =>
      rw [scanAfterSep, Bool.or_eq_true, Bool.and_eq_true, ih]
      constructor
      · rintro (⟨hsep, hm⟩ | ⟨u, c, v, hl, hsep, hm⟩)
        · exact ⟨[], a, as, rfl, hsep, hm⟩
        · exact ⟨a :: u, c, v, by rw [hl]; rfl, hsep, hm⟩
      · rintro ⟨u, c, v, hl, hsep, hm⟩
        cases u with
        | nil =>
            simp only [List.nil_append] at hl
            obtain ⟨h1, h2⟩ := List.cons.inj hl
            exact .inl ⟨by rw [h1]; exact hsep, by rw [h2]; exact hm⟩
        | cons u0 us =>
            simp only [List.cons_append] at hl
            obtain ⟨_, h2⟩ := List.cons.inj hl
            exact .inr ⟨us, c, v, h2, hsep, hm⟩

/-- C2 (counterexample): the classifier is not a function of the leading
    statement only — `SELECT 1; DROP TABLE x` begins with `SELECT` after
    trimming and ignoring leading separators, so the claim says it is not
    mutating, yet `isDMLDDLQuery` returns `true` because the regex
    alternative `[;\n\r]+\s*KW\b` also fires after the mid-text `;`. -/
theorem isDMLDDLQuery_not_leading_only :
    isDMLDDLQuery ("SELECT 1; DROP TABLE x") = true ∧
    claimMutating ("SELECT 1; DROP TABLE x") = false := by
  decide

/-- C2 (amended): `isDMLDDLQuery` returns `true` exactly when, in the
    trimmed upper-cased text, one of the thirteen keywords appears as a
    whole word after optional whitespace either at the very start or
    directly after a statement-separator character (`;`, newline or
    carriage return) anywhere in the text; in particular it is `true` for
    every canonical keyword at a statement start and `false` for a keyword
    occurring only inside an identifier, e.g. `SELECT "createdAt" FROM t`. -/
theorem isDMLDDLQuery_characterization :
    (∀ q : String, isDMLDDLQuery q = true ↔
      (mutatingAt (normalizeQuery q) ∨
       ∃ u c v, normalizeQuery q = u ++ c :: v ∧ isSepChar c = true ∧ mutatingAt v)) ∧
    dmlKeywords.all (fun kw => isDMLDDLQuery (String.mk (kw ++ (" TABLE t".data)))) = true ∧
    isDMLDDLQuery ("SELECT \"createdAt\" FROM t") = false := by
  refine ⟨fun q => ?_, by decide, by decide⟩
  rw [isDMLDDLQuery, Bool.or_eq_true, matchFrom_iff, scanAfterSep_iff]
  constructor
  · rintro (h | ⟨u, c, v, he, hc, hm⟩)
    · exact .inl h
    · exact .inr ⟨u, c, v, he, hc, (matchFrom_iff v).mp hm⟩
  · rintro (h | ⟨u, c, v, he, hc, hm⟩)
    · exact .inl h
    · exact .inr ⟨u, c, v, he, hc, (matchFrom_iff v).mpr hm⟩

-- ### Claim C5: partial-failure policy of resolution

lemma csStep_errs (parseCS : String → String → Except String Cfg) (ty : String)
    (acc : AliasTable × List String) (entry : List Char) :
    ∃ s0, (csStep parseCS ty acc entry).2 = acc.2 ++ s0 := by
  simp only [csStep]
  cases h : ((splitOnChar '=' entry).drop 1).head? with
  | none => exact ⟨[], by simp⟩
  | some url =>
      dsimp only
      by_cases hc : (((splitOnChar '=' entry).headD []).isEmpty || url.isEmpty) = true
      · rw [if_pos hc]
        exact ⟨[], by simp⟩
      · rw [if_neg hc]
        cases hp : parseCS (String.mk (jsTrim url)) ty with
        | ok cfg => exact ⟨[], by dsimp only; simp⟩
        | error m =>
            exact ⟨[("Invalid connection string for ") ++
              String.mk ((splitOnChar '=' entry).headD []) ++ (": ") ++ m],
              by dsimp only⟩

lemma csFold_errs_mono (parseCS : String → String → Except String Cfg) (ty : String)
    (l : List (List Char)) :
    ∀ acc, ∃ s, (l.foldl (csStep parseCS ty) acc).2 = acc.2 ++ s := by
  induction l with
  | nil => intro acc; exact ⟨[], by simp⟩
  | cons e rest ih =>
      intro acc
      obtain ⟨s0, hs0⟩ := csStep_errs parseCS ty acc e
      obtain ⟨s1, hs1⟩ := ih (csStep parseCS ty acc e)
      exact ⟨s0 ++ s1, by rw [List.foldl_cons, hs1, hs0, List.append_assoc]⟩

lemma cs_error_recorded (parseCS : String → String → Except String Cfg) (ty : String)
    (l : List (List Char)) :
    ∀ acc entry, entry ∈ l →
      ∀ url m, ((splitOnChar '=' entry).drop 1).head? = some url →
        ((splitOnChar '=' entry).headD []).isEmpty = false → url.isEmpty = false →
        parseCS (String.mk (jsTrim url)) ty = .error m →
        csErrMsg entry m ∈ (l.foldl (csStep parseCS ty) acc).2 := by
  induction l with
  | nil =>
      intro acc entry h
      simp at h
  | cons e0 rest ih =>
      intro acc entry hmem url m hurl ha hu hp
      rw [List.foldl_cons]
      rcases List.mem_cons.mp hmem with he | he
      · subst he
        obtain ⟨s, hs⟩ := csFold_errs_mono parseCS ty rest (csStep parseCS ty acc entry)
        rw [hs]
        have hstep : (csStep parseCS ty acc entry).2 = acc.2 ++ [csErrMsg entry m] := by
          simp only [csStep]
          rw [hurl]
          dsimp only
          rw [if_neg (by rw [ha, hu]; simp), hp]
          dsimp only [csErrMsg]
        rw [hstep]
        simp
      · exact ih (csStep parseCS ty acc e0) entry he url m hurl ha hu hp

/-- C5 (amended): provided the numbered and legacy tiers themselves validate
    (no thrown port/host error), resolution never fails on partial
    connection-string failures — any nonempty alias table is returned, an
    empty recorded-error list always yields success, and the summary error
    is raised exactly when no alias resolved and some parse error was
    recorded; moreover every entry whose URL fails to parse is recorded as
    a per-entry error (entries without `alias=url` shape are skipped
    silently).  The claim's unconditional no-throw guarantee fails: a
    numbered-tier validation error aborts the whole resolution (see the
    counterexample). -/
theorem parseMultipleConnections_error_policy (parseCS : String → String → Except String Cfg)
    (env : Env) (ty : String) (t2 t3 : AliasTable)
    (h2 : parseNumberedEnv env ty (parseConnectionStringEnv parseCS env ty [] []).1 = .ok t2)
    (h3 : parseLegacyEnv env ty t2 = .ok t3) :
    (t3 ≠ [] → parseMultipleConnections parseCS env ty = .ok t3) ∧
    ((parseConnectionStringEnv parseCS env ty [] []).2 = [] →
       parseMultipleConnections parseCS env ty = .ok t3) ∧
    (t3 = [] → (parseConnectionStringEnv parseCS env ty [] []).2 ≠ [] →
       parseMultipleConnections parseCS env ty
         = .error (noValidConnectionsMsg ty (parseConnectionStringEnv parseCS env ty [] []).2)) ∧
    (∀ entry ∈ connEntries env ty, ∀ url m,
       ((splitOnChar '=' entry).drop 1).head? = some url →
       ((splitOnChar '=' entry).headD []).isEmpty = false → url.isEmpty = false →
       parseCS (String.mk (jsTrim url)) ty = .error m →
       csErrMsg entry m ∈ (parseConnectionStringEnv parseCS env ty [] []).2) := by
  have hdef : parseMultipleConnections parseCS env ty =
      (if t3.isEmpty && !(parseConnectionStringEnv parseCS env ty [] []).2.isEmpty
       then .error (noValidConnectionsMsg ty (parseConnectionStringEnv parseCS env ty [] []).2)
       else .ok t3) := by
    simp only [parseMultipleConnections, h2, h3]
  refine ⟨?_, ?_, ?_, ?_⟩
  · intro hne
    rw [hdef]
    have h0 : t3.isEmpty = false := by
      cases t3 with
      | nil => exact absurd rfl hne
      | cons a b => rfl
    rw [h0]
    rfl
  · intro herrs
    rw [hdef, herrs]
    simp
  · intro ht3 herr
    have h0 : (parseConnectionStringEnv parseCS env ty [] []).2.isEmpty = false := by
      cases hv : (parseConnectionStringEnv parseCS env ty [] []).2 with
      | nil => exact absurd hv herr
      | cons a b => rfl
    rw [hdef, ht3, h0]
    rfl
  · intro entry hmem url m hurl ha hu hp
    exact cs_error_recorded parseCS ty (connEntries env ty) ([], []) entry hmem url m
      hurl ha hu hp

/-- C5 amended witness: with `MYSQL_CONNECTIONS="a=bad;b=good"` and a parser
    rejecting `bad`, the failing entry is skipped and recorded while the
    whole call still succeeds with alias `b`. -/
theorem parseMultipleConnections_error_policy_witness :
    parseMultipleConnections pfG envCS ("mysql") = .ok [(("b"), cfgC7a)] ∧
    csErrMsg (("a=bad").data) ("boom")
      ∈ (parseConnectionStringEnv pfG envCS ("mysql") [] []).2 := by
  have h := parseMultipleConnections_error_policy pfG envCS ("mysql")
    [(("b"), cfgC7a)] [(("b"), cfgC7a)] (by decide) (by decide)
  refine ⟨h.1 (by decide), ?_⟩
  exact h.2.2.2 (("a=bad").data) (by decide) (("bad").data) ("boom")
    (by decide) (by decide) (by decide) (by decide)

/-- C5 (counterexample): with `MYSQL_DB1_HOST=h` and `MYSQL_DB1_PORT=70000`
    the connection-string tier records no parse error at all, yet
    `parseMultipleConnections` fails — the numbered-tier port validation
    throws and aborts the whole resolution, contradicting the claim that
    the call fails only when zero usable aliases exist and at least one
    parse attempt failed. -/
theorem parseMultipleConnections_numbered_abort :
    (parseConnectionStringEnv pfU envC5 ("mysql") [] []).2 = [] ∧
    parseMultipleConnections pfU envC5 ("mysql")
      = .error (("Port phải là số dương từ 1-65535, nhận được: 70000")) := by
  decide

-- ### Claim C6: numbered-variable scan

lemma getDefaultPort_range (ty : String) :
    0 < getDefaultPort ty ∧ getDefaultPort ty ≤ 65535 := by
  unfold getDefaultPort
  split_ifs <;> norm_num

lemma validate_ok (cfg : Cfg) (ty : String)
    (hh : truthyS cfg.host = true ∨ truthyS cfg.server = true)
    (hp : truthyI cfg.port = false ∨ (0 < cfg.port.getD 0 ∧ cfg.port.getD 0 ≤ 65535))
    (ho : ty = ("sqlserver") → (invalidSqlOpts cfg).isEmpty = true) :
    validateConnectionConfig cfg ty = .ok cfg := by
  have h1 : ¬((!truthyS cfg.host && !truthyS cfg.server) = true) := by
    rcases hh with h | h <;> simp [h]
  have h2 : ¬((truthyI cfg.port && (cfg.port.getD 0 ≤ 0 || cfg.port.getD 0 > 65535)) = true) := by
    rcases hp with h | ⟨hpos, hle⟩
    · simp [h]
    · simp only [Bool.and_eq_true, Bool.or_eq_true, decide_eq_true_eq, not_and, not_or]
      intro _
      omega
  have h3 : ¬((ty = ("sqlserver") && !(invalidSqlOpts cfg).isEmpty) = true) := by
    by_cases hty : ty = ("sqlserver")
    · simp [hty, ho hty]
    · simp [hty]
  unfold validateConnectionConfig
  rw [if_neg h1, if_neg h2, if_neg h3]

lemma normalize_host_or_server (c : Cfg) (ty : String) (hh : truthyS c.host = true) :
    truthyS (normalizeSqlServerConfig c ty).host = true ∨
    truthyS (normalizeSqlServerConfig c ty).server = true := by
  unfold normalizeSqlServerConfig
  split
  · right
    exact hh
  · left
    exact hh

lemma normalize_options_ok (c : Cfg) (ty : String) (hnone : c.options = none) :
    (invalidSqlOpts (normalizeSqlServerConfig c ty)).isEmpty = true := by
  unfold normalizeSqlServerConfig
  split
  · dsimp only [invalidSqlOpts]
    decide
  · simp [invalidSqlOpts, hnone]

lemma numberedCfg_validate (env : Env) (ty : String) (dbIndex : Nat) (h : String)
    (hne : h.isEmpty = false)
    (hport : lookupEnv (envDbPortName ty dbIndex) env = none) :
    validateConnectionConfig (normalizeSqlServerConfig (numberedCfg env ty dbIndex h) ty) ty
      = .ok (normalizeSqlServerConfig (numberedCfg env ty dbIndex h) ty) := by
  have hdp := getDefaultPort_range ty
  have hportval : (numberedCfg env ty dbIndex h).port = some (getDefaultPort ty) := by
    simp [numberedCfg, hport, jsOrIntD, truthyI]
  apply validate_ok
  · exact normalize_host_or_server _ ty (by simp [numberedCfg, truthyS, hne])
  · right
    rw [normalize_port, hportval]
    exact ⟨hdp.1, hdp.2⟩
  · intro _
    exact normalize_options_ok _ ty (by simp [numberedCfg])

lemma setAlias_keys_mem (t : AliasTable) (k : String) (v : Cfg) (a : String) :
    a ∈ aliasKeys (setAlias t k v) ↔ a ∈ aliasKeys t ∨ a = k := by
  induction t with
  | nil => simp [setAlias, aliasKeys]
  | cons hd tl ih =>
      obtain ⟨k0, v0⟩ := hd
      by_cases hk : k0 = k
      · subst hk
        simp only [setAlias, if_pos rfl]
        simp [aliasKeys]
        tauto
      · simp only [setAlias, if_neg hk]
        simp only [aliasKeys, List.map_cons, List.mem_cons] at ih ⊢
        rw [ih]
        tauto

lemma parseNumberedEnvAux_scan (env : Env) (ty : String) :
    ∀ (k fuel dbIndex : Nat) (conns : AliasTable),
      k + 1 ≤ fuel →
      (∀ i, i < k → truthyS (lookupEnv (envDbHostName ty (dbIndex + i)) env) = true) →
      truthyS (lookupEnv (envDbHostName ty (dbIndex + k)) env) = false →
      (∀ i, i < k → lookupEnv (envDbPortName ty (dbIndex + i)) env = none) →
      ∃ t, parseNumberedEnvAux env ty fuel dbIndex conns = .ok t ∧
        ∀ a, a ∈ aliasKeys t ↔
          (a ∈ aliasKeys conns ∨ ∃ i, i < k ∧ a = ("db") ++ toString (dbIndex + i)) := by
  intro k
  induction k with
  | zero =>
      intro fuel dbIndex conns hfuel hhosts hgap hports
      obtain ⟨f, rfl⟩ : ∃ f, fuel = f + 1 := ⟨fuel - 1, by omega⟩
      rw [parseNumberedEnvAux]
      rw [Nat.add_zero] at hgap
      cases hl : lookupEnv (envDbHostName ty dbIndex) env with
      | none => exact ⟨conns, rfl, by simp⟩
      | some h =>
          rw [hl] at hgap
          have hemp : h.isEmpty = true := by simpa [truthyS] using hgap
          dsimp only
          rw [if_pos hemp]
          exact ⟨conns, rfl, by simp⟩
  | succ k ih =>
      intro fuel dbIndex conns hfuel hhosts hgap hports
      obtain ⟨f, rfl⟩ : ∃ f, fuel = f + 1 := ⟨fuel - 1, by omega⟩
      rw [parseNumberedEnvAux]
      have hh0 : truthyS (lookupEnv (envDbHostName ty dbIndex) env) = true := by
        have h0 := hhosts 0 (by omega)
        rwa [Nat.add_zero] at h0
      cases hl : lookupEnv (envDbHostName ty dbIndex) env with
      | none =>
          rw [hl] at hh0
          simp [truthyS] at hh0
      | some h =>
          rw [hl] at hh0
          have hne : h.isEmpty = false := by simpa [truthyS] using hh0
          dsimp only
          rw [if_neg (by simp [hne])]
          have hport0 : lookupEnv (envDbPortName ty dbIndex) env = none := by
            have h0 := hports 0 (by omega)
            rwa [Nat.add_zero] at h0
          rw [numberedCfg_validate env ty dbIndex h hne hport0]
          dsimp only
          obtain ⟨t, ht, hkeys⟩ := ih f (dbIndex + 1)
            (setAlias conns (("db") ++ toString dbIndex)
              (normalizeSqlServerConfig (numberedCfg env ty dbIndex h) ty))
            (by omega)
            (fun i hi => by
              have hx := hhosts (i + 1) (by omega)
              rwa [show dbIndex + (i + 1) = dbIndex + 1 + i by omega] at hx)
            (by
              have hx := hgap
              rwa [show dbIndex + (k + 1) = dbIndex + 1 + k by omega] at hx)
            (fun i hi => by
              have hx := hports (i + 1) (by omega)
              rwa [show dbIndex + (i + 1) = dbIndex + 1 + i by omega] at hx)
          refine ⟨t, ht, fun a => ?_⟩
          rw [hkeys a, setAlias_keys_mem]
          constructor
          · rintro ((h1 | h1) | ⟨i, hi, he⟩)
            · exact .inl h1
            · exact .inr ⟨0, by omega, by rw [Nat.add_zero]; exact h1⟩
            · exact .inr ⟨i + 1, by omega,
                by rw [show dbIndex + (i + 1) = dbIndex + 1 + i by omega]; exact he⟩
          · rintro (h1 | ⟨i, hi, he⟩)
            · exact .inl (.inl h1)
            · cases i with
              | zero =>
                  rw [Nat.add_zero] at he
                  exact .inl (.inr he)
              | succ j =>
                  exact .inr ⟨j, by omega,
                    by rw [show dbIndex + 1 + j = dbIndex + (j + 1) by omega]; exact he⟩

/-- C6: for every backend type, the numbered scan probes `T_DB1_HOST`,
    `T_DB2_HOST`, ... sequentially and stops at the first index whose host
    is missing: with hosts present for indices `1..n` (and no per-instance
    port overrides) and the host at `n+1` absent, the produced aliases are
    exactly `db1 .. dbn`, whatever later indices the environment may
    contain. -/
theorem parseNumberedEnv_gap_scan (env : Env) (ty : String) (n : Nat)
    (hn : n ≤ env.length)
    (hhosts : ∀ i, i < n → truthyS (lookupEnv (envDbHostName ty (1 + i)) env) = true)
    (hgap : truthyS (lookupEnv (envDbHostName ty (1 + n)) env) = false)
    (hports : ∀ i, i < n → lookupEnv (envDbPortName ty (1 + i)) env = none) :
    ∃ t, parseNumberedEnv env ty [] = .ok t ∧
      ∀ a, a ∈ aliasKeys t ↔ ∃ i, i < n ∧ a = ("db") ++ toString (1 + i) := by
  obtain ⟨t, ht, hk⟩ := parseNumberedEnvAux_scan env ty n (env.length + 1) 1 []
    (by omega) hhosts hgap hports
  exact ⟨t, ht, fun a => by rw [hk a]; simp [aliasKeys]⟩

/-- C6 witness: `MYSQL_DB1_HOST=a, MYSQL_DB2_HOST=b` yields aliases
    `{db1, db2}`; with `MYSQL_DB2_HOST` absent but `MYSQL_DB3_HOST` set the
    scan stops after `db1` and `db3` is never produced. -/
theorem parseNumberedEnv_gap_scan_witness :
    (∃ t, parseNumberedEnv env6a ("mysql") [] = .ok t ∧
       (("db1") ∈ aliasKeys t ∧ ("db2") ∈ aliasKeys t ∧ ("db3") ∉ aliasKeys t)) ∧
    (∃ t, parseNumberedEnv env6b ("mysql") [] = .ok t ∧
       (("db1") ∈ aliasKeys t ∧ ("db2") ∉ aliasKeys t ∧ ("db3") ∉ aliasKeys t)) := by
  constructor
  · obtain ⟨t, ht, hk⟩ := parseNumberedEnv_gap_scan env6a ("mysql") 2 (by decide)
      (by decide) (by decide) (by decide)
    refine ⟨t, ht, (hk _).2 ⟨0, by omega, by decide⟩, (hk _).2 ⟨1, by omega, by decide⟩, ?_⟩
    intro hmem
    obtain ⟨i, hi, he⟩ := (hk _).1 hmem
    interval_cases i
    · exact absurd he (by decide)
    · exact absurd he (by decide)
  · obtain ⟨t, ht, hk⟩ := parseNumberedEnv_gap_scan env6b ("mysql") 1 (by decide)
      (by decide) (by decide) (by decide)
    refine ⟨t, ht, (hk _).2 ⟨0, by omega, by decide⟩, ?_, ?_⟩
    · intro hmem
      obtain ⟨i, hi, he⟩ := (hk _).1 hmem
      interval_cases i
      exact absurd he (by decide)
    · intro hmem
      obtain ⟨i, hi, he⟩ := (hk _).1 hmem
      interval_cases i
      exact absurd he (by decide)
